import Mathlib

/-
Verification of the event-bridge in examples/kbrdhook.cpp: the
`event_sender_range_factory` template that adapts a callback-driven event
source into a pull-style sequence of single-event senders.

Modelling conventions (shallow embedding):
* Operation objects (`event_operation_state` instances) are identified by
  natural-number ids, standing for their addresses (the `void*` stored in
  `pendingOperation_`).
* The atomic `pendingOperation_` (a `void*`, null or a pointer to the
  pending operation) is `Option Nat`.
* The atomic `complete_with_event_` (a function pointer, set by the same
  operation's `start()` that set `pendingOperation_`) is modelled as
  `Option Nat`, tagged with the id of the operation whose `start()`
  published it; `none` is the null pointer.  Invoking the trampoline on the
  taken operation id with the event value models
  `complete_with_event(op, event)`.
* `std::terminate()` is modelled by a dedicated result constructor (for
  `start`) or by `Option.none` of a whole run (the process dies; nothing
  after the terminate executes).
* An unbounded sequential spin (the `while` loop in
  `event_function::operator()` when no other thread ever publishes the
  trampoline) is divergence, modelled as `Option.none` of the run.
-/

/-- The event slot of `event_sender_range_factory`: the two atomic fields
`pendingOperation_` (line 62) and `complete_with_event_` (line 64), both
null-initialised. -/
structure Slot where
  pendingOperation : Option Nat
  complete_with_event : Option Nat
deriving DecidableEq, Repr

/-- The initial slot: both atomics are initialised to `nullptr`
(`std::atomic<void*> pendingOperation_{nullptr}`,
`std::atomic<complete_function_t> complete_with_event_{nullptr}`). -/
def Slot.init : Slot := ⟨none, none⟩

/-- Result of `event_operation_state::start()`: either the updated slot, or
`std::terminate()` was reached; `terminated` carries the slot contents at
the moment of termination (a failed `compare_exchange_strong` writes
nothing). -/
inductive StartResult where
  | ok (s : Slot)
  | terminated (s : Slot)
deriving DecidableEq, Repr

/-- Model of `event_operation_state::start()` (lines 78-87): CAS
`pendingOperation_` from null to `this`; on failure `std::terminate()`.
Then CAS `complete_with_event_` from null to `&complete_with_event`; on
failure `std::terminate()`.  `self` is the operation's id; the trampoline
stored is tagged with the same id since `start` publishes both together. -/
def start (s : Slot) (self : Nat) : StartResult :=
  if s.pendingOperation = none then
    if s.complete_with_event = none then
      StartResult.ok ⟨some self, some self⟩
    else
      StartResult.terminated ⟨some self, s.complete_with_event⟩
  else
    StartResult.terminated s

/-- Model of `event_function::operator()(event)` (lines 42-51), sequential view.
`exchange` takes `pendingOperation_` replacing it with null; if null the
event is discarded.  Otherwise the spin loop exchanges
`complete_with_event_` until non-null; run sequentially with a null
trampoline the loop never exits, modelled as `none` (divergence).  On
success it invokes the trampoline: the returned list holds the completions
performed by this call, as pairs (operation id, event value). -/
def deliver (s : Slot) (event : Nat) : Option (Slot × List (Nat × Nat)) :=
  match s.pendingOperation with
  | none => some (⟨none, s.complete_with_event⟩, [])
  | some op =>
    match s.complete_with_event with
    | none => none
    | some _ => some (⟨none, none⟩, [(op, event)])

/-- Consumer/delivery actions driving one factory's slot. -/
inductive Act where
  | startOp (id : Nat)
  | deliverE (e : Nat)
deriving DecidableEq, Repr

/-- Observable events of a run. -/
inductive Ev where
  | opStart (id : Nat)
  | opComplete (id : Nat) (e : Nat)
  | drop (e : Nat)
deriving DecidableEq, Repr

/-- Run a list of actions against the slot, collecting observable events.
`none` means the process terminated (`std::terminate` in `start`) or the
delivery spun forever (sequential divergence in `deliver`). -/
def runActs (s : Slot) : List Act → Option (Slot × List Ev)
  | [] => some (s, [])
  | Act.startOp id :: rest =>
    match start s id with
    | StartResult.terminated _ => none
    | StartResult.ok s1 =>
      match runActs s1 rest with
      | none => none
      | some (s2, evs) => some (s2, Ev.opStart id :: evs)
  | Act.deliverE e :: rest =>
    match deliver s e with
    | none => none
    | some (s1, cs) =>
      match runActs s1 rest with
      | none => none
      | some (s2, evs) =>
        some (s2, (if cs.isEmpty then [Ev.drop e] else cs.map (fun c => Ev.opComplete c.1 c.2)) ++ evs)

/-- Number of completions of operation `op` in an event list. -/
def countCompletes (op : Nat) (evs : List Ev) : Nat :=
  (evs.filter (fun ev => match ev with | Ev.opComplete id _ => id = op | _ => false)).length

/-- Number of `startOp op` actions in an action list. -/
def countStarts (op : Nat) (acts : List Act) : Nat :=
  (acts.filter (fun a => match a with | Act.startOp id => id = op | _ => false)).length

-- ### Helper lemmas about start, deliver and runActs

theorem start_ok_of_empty (p : Option Nat) (c : Option Nat) (id : Nat)
    (hp : p = none) (hc : c = none) :
    start ⟨p, c⟩ id = StartResult.ok ⟨some id, some id⟩ := by
  subst hp; subst hc; rfl

theorem start_terminated_of_pending (s : Slot) (op id : Nat)
    (hp : s.pendingOperation = some op) :
    start s id = StartResult.terminated s := by
  unfold start
  rw [hp]
  simp

theorem deliver_empty (s : Slot) (e : Nat) (h : s.pendingOperation = none) :
    deliver s e = some (s, []) := by
  obtain ⟨p, c⟩ := s
  replace h : p = none := h
  subst h
  rfl

theorem deliver_taken (s : Slot) (e : Nat) (op t : Nat)
    (hp : s.pendingOperation = some op) (ht : s.complete_with_event = some t) :
    deliver s e = some (⟨none, none⟩, [(op, e)]) := by
  obtain ⟨p, c⟩ := s
  replace hp : p = some op := hp
  replace ht : c = some t := ht
  subst hp; subst ht
  rfl

theorem deliver_spin (s : Slot) (e : Nat) (op : Nat)
    (hp : s.pendingOperation = some op) (ht : s.complete_with_event = none) :
    deliver s e = none := by
  obtain ⟨p, c⟩ := s
  replace hp : p = some op := hp
  replace ht : c = none := ht
  subst hp; subst ht
  rfl

/-- Inversion of `deliver`: a successful call either dropped (slot had no
pending operation, state unchanged, no completion) or completed exactly the
pending operation with the delivered event, clearing both fields. -/
theorem deliver_inv (s : Slot) (e : Nat) (s1 : Slot) (cs : List (Nat × Nat))
    (h : deliver s e = some (s1, cs)) :
    (s.pendingOperation = none ∧ s1 = s ∧ cs = []) ∨
    (∃ op t, s.pendingOperation = some op ∧ s.complete_with_event = some t ∧
      s1 = ⟨none, none⟩ ∧ cs = [(op, e)]) := by
  obtain ⟨p, c⟩ := s
  cases p with
  | none =>
    left
    refine ⟨rfl, ?_, ?_⟩ <;>
      · have h' : some ((⟨none, c⟩ : Slot), ([] : List (Nat × Nat))) = some (s1, cs) := h
        simp only [Option.some.injEq, Prod.mk.injEq] at h'
        simp [h'.1.symm, h'.2.symm]
  | some op =>
    cases c with
    | none => exact Option.noConfusion h
    | some t =>
      right
      refine ⟨op, t, rfl, rfl, ?_, ?_⟩ <;>
        · have h' : some ((⟨none, none⟩ : Slot), [(op, e)]) = some (s1, cs) := h
          simp only [Option.some.injEq, Prod.mk.injEq] at h'
          simp [h'.1.symm, h'.2.symm]

/-- Inversion of `runActs` on a leading `startOp`. -/
theorem runActs_start_inv (s : Slot) (id : Nat) (rest : List Act)
    (s2 : Slot) (evs : List Ev)
    (h : runActs s (Act.startOp id :: rest) = some (s2, evs)) :
    ∃ s1 evs1, start s id = StartResult.ok s1 ∧
      runActs s1 rest = some (s2, evs1) ∧ evs = Ev.opStart id :: evs1 := by
  simp only [runActs] at h
  split at h
  · exact Option.noConfusion h
  · split at h
    · exact Option.noConfusion h
    · rename_i s1 hst p s2' evs1 hr
      simp only [Option.some.injEq, Prod.mk.injEq] at h
      exact ⟨s1, evs1, hst, by rw [hr, h.1], h.2.symm⟩

/-- Inversion of `runActs` on a leading `deliverE`. -/
theorem runActs_deliver_inv (s : Slot) (e : Nat) (rest : List Act)
    (s2 : Slot) (evs : List Ev)
    (h : runActs s (Act.deliverE e :: rest) = some (s2, evs)) :
    ∃ s1 cs evs1, deliver s e = some (s1, cs) ∧
      runActs s1 rest = some (s2, evs1) ∧
      evs = (if cs.isEmpty then [Ev.drop e] else cs.map (fun c => Ev.opComplete c.1 c.2)) ++ evs1 := by
  simp only [runActs] at h
  split at h
  · exact Option.noConfusion h
  · split at h
    · exact Option.noConfusion h
    · rename_i s1 cs hd p s2' evs1 hr
      simp only [Option.some.injEq, Prod.mk.injEq] at h
      exact ⟨s1, cs, evs1, hd, by rw [hr, h.1], h.2.symm⟩

theorem countCompletes_opStart (op id : Nat) (evs : List Ev) :
    countCompletes op (Ev.opStart id :: evs) = countCompletes op evs := by
  simp [countCompletes, List.filter]

theorem countCompletes_drop (op e : Nat) (evs : List Ev) :
    countCompletes op (Ev.drop e :: evs) = countCompletes op evs := by
  simp [countCompletes, List.filter]

theorem countCompletes_complete (op id e : Nat) (evs : List Ev) :
    countCompletes op (Ev.opComplete id e :: evs) =
      (if id = op then 1 else 0) + countCompletes op evs := by
  by_cases h : id = op
  · simp [countCompletes, List.filter, h]
    omega
  · simp [countCompletes, List.filter, h]

/-- The completion count of `op` in a run is bounded by the number of
`startOp op` actions, plus one if `op` was already pending initially. -/
theorem runActs_completes_le (op : Nat) :
    ∀ (acts : List Act) (s : Slot) (s2 : Slot) (evs : List Ev),
      runActs s acts = some (s2, evs) →
      countCompletes op evs ≤
        countStarts op acts + (if s.pendingOperation = some op then 1 else 0) := by
  intro acts
  induction acts with
  | nil =>
    intro s s2 evs h
    simp only [runActs, Option.some.injEq, Prod.mk.injEq] at h
    rw [← h.2]
    simp [countCompletes]
  | cons a rest ih =>
    intro s s2 evs h
    cases a with
    | startOp id =>
      obtain ⟨s1, evs1, hst, hr, hevs⟩ := runActs_start_inv s id rest s2 evs h
      subst hevs
      rw [countCompletes_opStart]
      have hb := ih s1 s2 evs1 hr
      unfold start at hst
      split at hst
      · rename_i hp
        split at hst
        · rename_i hc
          simp only [StartResult.ok.injEq] at hst
          have hpend1 : s1.pendingOperation = some id := by rw [← hst]
          by_cases hid : id = op
          · subst hid
            rw [hpend1, if_pos rfl] at hb
            have hcs : countStarts id (Act.startOp id :: rest) = countStarts id rest + 1 := by
              simp [countStarts, List.filter]
            rw [hcs, hp, if_neg (by simp : ¬ (none : Option Nat) = some id)]
            omega
          · have hnp : ¬ s1.pendingOperation = some op := by rw [hpend1]; simp [hid]
            rw [if_neg hnp] at hb
            have hcs : countStarts op (Act.startOp id :: rest) = countStarts op rest := by
              simp [countStarts, List.filter, hid]
            rw [hcs, hp, if_neg (by simp : ¬ (none : Option Nat) = some op)]
            omega
        · exact StartResult.noConfusion hst
      · exact StartResult.noConfusion hst
    | deliverE e =>
      obtain ⟨s1, cs, evs1, hd, hr, hevs⟩ := runActs_deliver_inv s e rest s2 evs h
      subst hevs
      have hb := ih s1 s2 evs1 hr
      have hcs : countStarts op (Act.deliverE e :: rest) = countStarts op rest := by
        simp [countStarts, List.filter]
      rw [hcs]
      rcases deliver_inv s e s1 cs hd with ⟨hp, hs1, hcnil⟩ | ⟨q, t, hp, ht, hs1, hcs1⟩
      · subst hcnil
        have hred : ((if ([] : List (Nat × Nat)).isEmpty then [Ev.drop e]
            else ([] : List (Nat × Nat)).map (fun c => Ev.opComplete c.1 c.2)) ++ evs1)
            = Ev.drop e :: evs1 := by simp
        rw [hred, countCompletes_drop]
        rw [hs1] at hb
        rw [hp, if_neg (by simp : ¬ (none : Option Nat) = some op)] at hb ⊢
        omega
      · subst hcs1
        simp only [List.isEmpty_cons, List.map_cons, List.map_nil]
        have hred : ((if false = true then [Ev.drop e] else [Ev.opComplete q e]) ++ evs1)
            = Ev.opComplete q e :: evs1 := by simp
        rw [hred, countCompletes_complete]
        have hnp1 : ¬ s1.pendingOperation = some op := by rw [hs1]; simp
        rw [if_neg hnp1] at hb
        by_cases hq : q = op
        · subst hq
          rw [hp, if_pos rfl, if_pos rfl]
          omega
        · rw [if_neg hq, hp, if_neg (by simpa using hq)]
          omega

-- ### Claim theorems C1-C4

/-- C1: for any single call of the delivery function with an event `e`, at
most one Operation observes `e`: `deliver` atomically takes the pending
Operation out of the EventSlot (the result slot's pending field is empty),
and every completion it performs hands `e` to exactly the Operation that
was taken, or to none. -/
theorem no_duplicate_delivery (s : Slot) (e : Nat) (s1 : Slot)
    (cs : List (Nat × Nat)) (h : deliver s e = some (s1, cs)) :
    cs.length ≤ 1 ∧ s1.pendingOperation = none ∧
      ∀ c ∈ cs, s.pendingOperation = some c.1 ∧ c.2 = e := by
  rcases deliver_inv s e s1 cs h with ⟨hp, hs1, hcs⟩ | ⟨op, t, hp, ht, hs1, hcs⟩
  · subst hcs
    subst hs1
    exact ⟨by simp, hp, by simp⟩
  · subst hcs
    subst hs1
    refine ⟨by simp, rfl, ?_⟩
    intro c hc
    simp only [List.mem_singleton] at hc
    subst hc
    exact ⟨hp, rfl⟩

theorem no_duplicate_delivery_witness :
    ([((1 : Nat), (42 : Nat))] : List (Nat × Nat)).length ≤ 1 ∧
      (⟨none, none⟩ : Slot).pendingOperation = none ∧
      ∀ c ∈ ([((1 : Nat), (42 : Nat))] : List (Nat × Nat)),
        (⟨some 1, some 1⟩ : Slot).pendingOperation = some c.1 ∧ c.2 = 42 :=
  no_duplicate_delivery ⟨some 1, some 1⟩ 42 ⟨none, none⟩ [(1, 42)] (by rfl)

/-- C2: delivering `e` while no Operation is pending leaves the slot
exactly unchanged and performs no completion (the event is discarded, no
trampoline is taken or invoked), and the remainder of any run is
byte-for-byte the run that would have happened had `deliver e` never been
called — so an Operation started afterwards never receives `e`. -/
theorem drop_when_idle (s : Slot) (e : Nat) (rest : List Act)
    (h : s.pendingOperation = none) :
    deliver s e = some (s, []) ∧
    runActs s (Act.deliverE e :: rest) =
      Option.map (fun p => (p.1, Ev.drop e :: p.2)) (runActs s rest) := by
  refine ⟨deliver_empty s e h, ?_⟩
  simp only [runActs, deliver_empty s e h]
  cases hr : runActs s rest with
  | none => rfl
  | some p =>
    obtain ⟨s2, evs⟩ := p
    simp

theorem drop_when_idle_witness :
    deliver Slot.init 5 = some (Slot.init, []) ∧
    runActs Slot.init (Act.deliverE 5 :: [Act.startOp 0, Act.deliverE 7]) =
      Option.map (fun p => (p.1, Ev.drop 5 :: p.2))
        (runActs Slot.init [Act.startOp 0, Act.deliverE 7]) :=
  drop_when_idle Slot.init 5 [Act.startOp 0, Act.deliverE 7] (by rfl)

/-- C3: a delivery that completes an Operation leaves both EventSlot fields
empty; a second delivery attempt then completes nothing (it cannot complete
the same Operation again), the slot is usable for the next Operation
(`start` succeeds on it), and in any continuation of the run an operation
id is completed at most as many times as it is started again. -/
theorem exactly_once_completion (s : Slot) (e e2 : Nat) (s1 : Slot)
    (op b : Nat) (cs : List (Nat × Nat))
    (h : deliver s e = some (s1, cs)) (hne : cs ≠ []) :
    s1 = ⟨none, none⟩ ∧
    deliver s1 e2 = some (s1, []) ∧
    start s1 b = StartResult.ok ⟨some b, some b⟩ ∧
    (∀ acts s2 evs, runActs s1 acts = some (s2, evs) →
      countCompletes op evs ≤ countStarts op acts) := by
  rcases deliver_inv s e s1 cs h with ⟨hp, hs1, hcs⟩ | ⟨q, t, hp, ht, hs1, hcs⟩
  · exact absurd hcs hne
  · subst hs1
    refine ⟨rfl, deliver_empty _ e2 rfl, start_ok_of_empty none none b rfl rfl, ?_⟩
    intro acts s2 evs hr
    have hb := runActs_completes_le op acts ⟨none, none⟩ s2 evs hr
    simpa using hb

theorem exactly_once_completion_witness :
    (⟨none, none⟩ : Slot) = ⟨none, none⟩ ∧
    deliver ⟨none, none⟩ 2 = some (⟨none, none⟩, []) ∧
    start ⟨none, none⟩ 4 = StartResult.ok ⟨some 4, some 4⟩ ∧
    (∀ acts s2 evs, runActs ⟨none, none⟩ acts = some (s2, evs) →
      countCompletes 3 evs ≤ countStarts 3 acts) :=
  exactly_once_completion ⟨some 3, some 3⟩ 1 2 ⟨none, none⟩ 3 4 [(3, 1)]
    (by rfl) (by simp)

/-- C4: calling `start` for Operation `b` while Operation `a` is pending
reaches `std::terminate()`: the failed compare-exchange writes nothing, so
the slot still holds `a` (never silently replaced by `b`), and the whole
run dies at that action — no continuation executes. -/
theorem start_while_pending_is_fatal (s : Slot) (a b : Nat)
    (hp : s.pendingOperation = some a) :
    start s b = StartResult.terminated s ∧
    s.pendingOperation = some a ∧
    (∀ rest, runActs s (Act.startOp b :: rest) = none) := by
  have ht := start_terminated_of_pending s a b hp
  refine ⟨ht, hp, ?_⟩
  intro rest
  simp only [runActs, ht]

theorem start_while_pending_is_fatal_witness :
    start ⟨some 1, some 1⟩ 2 = StartResult.terminated ⟨some 1, some 1⟩ ∧
    (⟨some 1, some 1⟩ : Slot).pendingOperation = some 1 ∧
    (∀ rest, runActs ⟨some 1, some 1⟩ (Act.startOp 2 :: rest) = none) :=
  start_while_pending_is_fatal ⟨some 1, some 1⟩ 1 2 (by rfl)

-- ### Interleaved model: one start() racing one delivery (for C5)

/-- Program counter of the consumer thread executing
`event_operation_state::start()` (lines 78-87): about to CAS
`pendingOperation_`, about to CAS `complete_with_event_`, or returned. -/
inductive StartPC where
  | casPending
  | casTrampoline
  | startDone
deriving DecidableEq, Repr

/-- Program counter of the delivery thread executing
`event_function::operator()` (lines 42-51): about to exchange
`pendingOperation_`; in the `while` spin loop about to exchange
`complete_with_event_`; holding a non-null trampoline about to invoke it;
or returned. -/
inductive DeliverPC where
  | takePending
  | spin
  | invoke
  | deliverDone
deriving DecidableEq, Repr

/-- Thread identifiers for the interleaving. -/
inductive Tid where
  | consumer
  | deliverer
deriving DecidableEq, Repr

/-- Interleaved state: the shared slot, one consumer thread running
`start()` for operation `opId`, one delivery thread running
`operator()(event)`.  `takenOp` and `takenTramp` are the delivery thread's
locals `op` and `complete_with_event`; `spins` counts spin iterations that
read null; `completions` records trampoline invocations; `crashed` records
`std::terminate()`. -/
structure Sys where
  slot : Slot
  spc : StartPC
  opId : Nat
  dpc : DeliverPC
  event : Nat
  takenOp : Option Nat
  takenTramp : Option Nat
  spins : Nat
  completions : List (Nat × Nat)
  crashed : Bool
deriving DecidableEq, Repr

/-- One atomic step of the consumer thread in `start()`. -/
def stepStart (s : Sys) : Sys :=
  if s.crashed then s else
  match s.spc with
  | StartPC.casPending =>
    if s.slot.pendingOperation = none then
      { s with slot := ⟨some s.opId, s.slot.complete_with_event⟩,
               spc := StartPC.casTrampoline }
    else
      { s with crashed := true }
  | StartPC.casTrampoline =>
    if s.slot.complete_with_event = none then
      { s with slot := ⟨s.slot.pendingOperation, some s.opId⟩,
               spc := StartPC.startDone }
    else
      { s with crashed := true }
  | StartPC.startDone => s

/-- One atomic step of the delivery thread in `operator()(event)`. -/
def stepDeliver (s : Sys) : Sys :=
  if s.crashed then s else
  match s.dpc with
  | DeliverPC.takePending =>
    match s.slot.pendingOperation with
    | none =>
      { s with slot := ⟨none, s.slot.complete_with_event⟩,
               dpc := DeliverPC.deliverDone }
    | some op =>
      { s with slot := ⟨none, s.slot.complete_with_event⟩,
               takenOp := some op, dpc := DeliverPC.spin }
  | DeliverPC.spin =>
    match s.slot.complete_with_event with
    | none =>
      { s with slot := ⟨s.slot.pendingOperation, none⟩, spins := s.spins + 1 }
    | some t =>
      { s with slot := ⟨s.slot.pendingOperation, none⟩,
               takenTramp := some t, dpc := DeliverPC.invoke }
  | DeliverPC.invoke =>
    match s.takenOp with
    | none => s
    | some op =>
      { s with completions := s.completions ++ [(op, s.event)],
               dpc := DeliverPC.deliverDone }
  | DeliverPC.deliverDone => s

def stepSys (s : Sys) : Tid → Sys
  | Tid.consumer => stepStart s
  | Tid.deliverer => stepDeliver s

/-- Run the interleaving given by a schedule. -/
def runSys (s : Sys) : List Tid → Sys
  | [] => s
  | t :: rest => runSys (stepSys s t) rest

/-- Initial interleaved state: empty slot, `start(op)` and
`operator()(e)` both about to execute their first atomic access. -/
def Sys.init (op e : Nat) : Sys :=
  ⟨Slot.init, StartPC.casPending, op, DeliverPC.takePending, e,
   none, none, 0, [], false⟩

/-- Exact characterisation of the states reachable from `Sys.init op e`:
each disjunct pins the slot, the delivery thread's locals and the
completion log for one combination of the two program counters. -/
def Reach (op e : Nat) (s : Sys) : Prop :=
  s.opId = op ∧ s.event = e ∧ s.crashed = false ∧
  ((s.spc = StartPC.casPending ∧
      (s.dpc = DeliverPC.takePending ∨ s.dpc = DeliverPC.deliverDone) ∧
      s.slot = ⟨none, none⟩ ∧ s.takenOp = none ∧ s.takenTramp = none ∧
      s.completions = []) ∨
   (s.spc = StartPC.casTrampoline ∧
      (s.dpc = DeliverPC.takePending ∨ s.dpc = DeliverPC.deliverDone) ∧
      s.slot = ⟨some op, none⟩ ∧ s.takenOp = none ∧ s.takenTramp = none ∧
      s.completions = []) ∨
   (s.spc = StartPC.startDone ∧
      (s.dpc = DeliverPC.takePending ∨ s.dpc = DeliverPC.deliverDone) ∧
      s.slot = ⟨some op, some op⟩ ∧ s.takenOp = none ∧ s.takenTramp = none ∧
      s.completions = []) ∨
   (s.spc = StartPC.casTrampoline ∧ s.dpc = DeliverPC.spin ∧
      s.slot = ⟨none, none⟩ ∧ s.takenOp = some op ∧ s.takenTramp = none ∧
      s.completions = []) ∨
   (s.spc = StartPC.startDone ∧ s.dpc = DeliverPC.spin ∧
      s.slot = ⟨none, some op⟩ ∧ s.takenOp = some op ∧ s.takenTramp = none ∧
      s.completions = []) ∨
   (s.spc = StartPC.startDone ∧ s.dpc = DeliverPC.invoke ∧
      s.slot = ⟨none, none⟩ ∧ s.takenOp = some op ∧ s.takenTramp = some op ∧
      s.completions = []) ∨
   (s.spc = StartPC.startDone ∧ s.dpc = DeliverPC.deliverDone ∧
      s.slot = ⟨none, none⟩ ∧ s.takenOp = some op ∧ s.takenTramp = some op ∧
      s.completions = [(op, e)]))

theorem reach_init (op e : Nat) : Reach op e (Sys.init op e) := by
  refine ⟨rfl, rfl, rfl, Or.inl ?_⟩
  exact ⟨rfl, Or.inl rfl, rfl, rfl, rfl, rfl⟩

theorem reach_step (op e : Nat) (s : Sys) (t : Tid) (h : Reach op e s) :
    Reach op e (stepSys s t) := by
  obtain ⟨sl, spc, opId, dpc, ev, tOp, tTr, sp, comp, cr⟩ := s
  obtain ⟨hop, hev, hcr, hd⟩ := h
  replace hop : opId = op := hop
  replace hev : ev = e := hev
  replace hcr : cr = false := hcr
  subst hop; subst hev; subst hcr
  cases t <;>
  rcases hd with ⟨h1, h2 | h2, h3, h4, h5, h6⟩ | ⟨h1, h2 | h2, h3, h4, h5, h6⟩ |
    ⟨h1, h2 | h2, h3, h4, h5, h6⟩ | ⟨h1, h2, h3, h4, h5, h6⟩ |
    ⟨h1, h2, h3, h4, h5, h6⟩ | ⟨h1, h2, h3, h4, h5, h6⟩ |
    ⟨h1, h2, h3, h4, h5, h6⟩ <;>
  · replace h1 : spc = _ := h1
    replace h2 : dpc = _ := h2
    replace h3 : sl = _ := h3
    replace h4 : tOp = _ := h4
    replace h5 : tTr = _ := h5
    replace h6 : comp = _ := h6
    subst h1; subst h2; subst h3; subst h4; subst h5; subst h6
    simp [stepSys, stepStart, stepDeliver, Reach]

theorem reach_run (op e : Nat) (s : Sys) (sched : List Tid) (h : Reach op e s) :
    Reach op e (runSys s sched) := by
  induction sched generalizing s with
  | nil => exact h
  | cons t rest ih => exact ih (stepSys s t) (reach_step op e s t h)

/-- From any reachable state where the delivery thread is inside the spin
loop, letting the starting thread finish its at most two remaining steps
and then running one more spin iteration exits the loop with the
trampoline published by that operation's `start()`. -/
theorem spin_progress (op e : Nat) (s : Sys) (h : Reach op e s)
    (hs : s.dpc = DeliverPC.spin) :
    (runSys s [Tid.consumer, Tid.consumer, Tid.deliverer]).dpc = DeliverPC.invoke ∧
    (runSys s [Tid.consumer, Tid.consumer, Tid.deliverer]).takenTramp = some op := by
  obtain ⟨sl, spc, opId, dpc, ev, tOp, tTr, sp, comp, cr⟩ := s
  obtain ⟨hop, hev, hcr, hd⟩ := h
  replace hop : opId = op := hop
  replace hev : ev = e := hev
  replace hcr : cr = false := hcr
  replace hs : dpc = DeliverPC.spin := hs
  subst hop; subst hev; subst hcr; subst hs
  rcases hd with ⟨h1, h2 | h2, h3, h4, h5, h6⟩ | ⟨h1, h2 | h2, h3, h4, h5, h6⟩ |
    ⟨h1, h2 | h2, h3, h4, h5, h6⟩ | ⟨h1, h2, h3, h4, h5, h6⟩ |
    ⟨h1, h2, h3, h4, h5, h6⟩ | ⟨h1, h2, h3, h4, h5, h6⟩ |
    ⟨h1, h2, h3, h4, h5, h6⟩
  · exact DeliverPC.noConfusion (h2 : DeliverPC.spin = DeliverPC.takePending)
  · exact DeliverPC.noConfusion (h2 : DeliverPC.spin = DeliverPC.deliverDone)
  · exact DeliverPC.noConfusion (h2 : DeliverPC.spin = DeliverPC.takePending)
  · exact DeliverPC.noConfusion (h2 : DeliverPC.spin = DeliverPC.deliverDone)
  · exact DeliverPC.noConfusion (h2 : DeliverPC.spin = DeliverPC.takePending)
  · exact DeliverPC.noConfusion (h2 : DeliverPC.spin = DeliverPC.deliverDone)
  · -- spc = casTrampoline, slot empty: the starter still has its second
    -- CAS to perform; once it lands the next spin iteration takes it.
    replace h1 : spc = _ := h1
    replace h3 : sl = _ := h3
    replace h4 : tOp = _ := h4
    replace h5 : tTr = _ := h5
    replace h6 : comp = _ := h6
    subst h1; subst h3; subst h4; subst h5; subst h6
    constructor <;> rfl
  · -- spc = startDone: the trampoline is already published; the next spin
    -- iteration takes it.
    replace h1 : spc = _ := h1
    replace h3 : sl = _ := h3
    replace h4 : tOp = _ := h4
    replace h5 : tTr = _ := h5
    replace h6 : comp = [] := h6
    subst h1; subst h3; subst h4; subst h5; subst h6
    constructor <;> rfl
  · exact DeliverPC.noConfusion (h2 : DeliverPC.spin = DeliverPC.invoke)
  · exact DeliverPC.noConfusion (h2 : DeliverPC.spin = DeliverPC.deliverDone)

/-- C5: in the interleaved race of one `start(op)` against one delivery,
for every schedule: the process never terminates (correct usage), whenever
the delivery thread leaves the spin loop and proceeds to invoke it holds
exactly the trampoline published by `op`'s `start()` — never null, never a
stale one — and whenever it is still spinning, the wait is bounded by the
starter's progress: as soon as the starter's at most two remaining steps
run, the very next spin iteration obtains the trampoline and proceeds. -/
theorem deliver_spin_bounded_no_stale (op e : Nat) (sched : List Tid) :
    ((runSys (Sys.init op e) sched).crashed = false) ∧
    ((runSys (Sys.init op e) sched).dpc = DeliverPC.invoke →
      (runSys (Sys.init op e) sched).takenOp = some op ∧
      (runSys (Sys.init op e) sched).takenTramp = some op) ∧
    ((runSys (Sys.init op e) sched).dpc = DeliverPC.spin →
      (runSys (runSys (Sys.init op e) sched)
          [Tid.consumer, Tid.consumer, Tid.deliverer]).dpc = DeliverPC.invoke ∧
      (runSys (runSys (Sys.init op e) sched)
          [Tid.consumer, Tid.consumer, Tid.deliverer]).takenTramp = some op) := by
  have hre := reach_run op e (Sys.init op e) sched (reach_init op e)
  refine ⟨hre.2.2.1, ?_, fun hspin => spin_progress op e _ hre hspin⟩
  intro hinv
  obtain ⟨hop, hev, hcr, hd⟩ := hre
  rcases hd with ⟨h1, h2 | h2, h3, h4, h5, h6⟩ | ⟨h1, h2 | h2, h3, h4, h5, h6⟩ |
    ⟨h1, h2 | h2, h3, h4, h5, h6⟩ | ⟨h1, h2, h3, h4, h5, h6⟩ |
    ⟨h1, h2, h3, h4, h5, h6⟩ | ⟨h1, h2, h3, h4, h5, h6⟩ |
    ⟨h1, h2, h3, h4, h5, h6⟩ <;>
  first
    | exact ⟨h4, h5⟩
    | (rw [hinv] at h2; exact DeliverPC.noConfusion h2)

theorem deliver_spin_bounded_no_stale_witness :
    ((runSys (Sys.init 1 9) [Tid.consumer, Tid.deliverer, Tid.deliverer]).crashed = false) ∧
    ((runSys (Sys.init 1 9) [Tid.consumer, Tid.deliverer, Tid.deliverer]).dpc = DeliverPC.invoke →
      (runSys (Sys.init 1 9) [Tid.consumer, Tid.deliverer, Tid.deliverer]).takenOp = some 1 ∧
      (runSys (Sys.init 1 9) [Tid.consumer, Tid.deliverer, Tid.deliverer]).takenTramp = some 1) ∧
    ((runSys (Sys.init 1 9) [Tid.consumer, Tid.deliverer, Tid.deliverer]).dpc = DeliverPC.spin →
      (runSys (runSys (Sys.init 1 9) [Tid.consumer, Tid.deliverer, Tid.deliverer])
          [Tid.consumer, Tid.consumer, Tid.deliverer]).dpc = DeliverPC.invoke ∧
      (runSys (runSys (Sys.init 1 9) [Tid.consumer, Tid.deliverer, Tid.deliverer])
          [Tid.consumer, Tid.consumer, Tid.deliverer]).takenTramp = some 1) :=
  deliver_spin_bounded_no_stale 1 9 [Tid.consumer, Tid.deliverer, Tid.deliverer]

-- ### Bridge lifecycle: registration, sequence generation, teardown

/-- Lifecycle-level observable events: the external `register`/`unregister`
calls plus the slot-level events of a run. -/
inductive LEv where
  | reg (h : Nat)
  | unreg (h : Nat)
  | opStart (id : Nat)
  | opComplete (id : Nat) (e : Nat)
  | drop (e : Nat)
deriving DecidableEq, Repr

def liftEv : Ev → LEv
  | Ev.opStart id => LEv.opStart id
  | Ev.opComplete id e => LEv.opComplete id e
  | Ev.drop e => LEv.drop e

def isRegCall : LEv → Bool
  | LEv.reg _ => true
  | _ => false

def isUnregCall : LEv → Bool
  | LEv.unreg _ => true
  | _ => false

/-- The factory's registration storage and event slot.  `registration` is
the `union storage` (lines 57-61): `none` is the `empty_` member (no
`registration_t` constructed), `some h` is a constructed `registration_`
holding handle `h`. -/
structure Factory where
  registration : Option Nat
  slot : Slot
deriving DecidableEq, Repr

/-- Model of `create_event_sender_range` (lines 134-141): builds the factory with
the union initialised to `{0}` (empty) and both atomics null. -/
def create_event_sender_range : Factory := ⟨none, Slot.init⟩

/-- Model of `event_sender_range_factory::start(token)` (lines 121-131): placement-
news `storage_.registration_` with `registerFn_(event_function_)` and then
returns the sender range.  The external register call is represented by
its result: `some h` (a registration handle) or `none` if the register
call terminated the process instead of returning. -/
def factory_start (registerResult : Option Nat) (f : Factory) :
    Option (Factory × List LEv) :=
  match registerResult with
  | none => none
  | some h => some ({ f with registration := some h }, [LEv.reg h])

/-- Model of `sender_range::~sender_range` (lines 112-115): calls
`unregisterFn_(storage_.registration_)` and then destroys
`registration_`.  Destroying a registration that was never constructed is
undefined, modelled as `none`. -/
def sender_range_dtor (f : Factory) : Option (Factory × List LEv) :=
  match f.registration with
  | none => none
  | some h => some (⟨none, f.slot⟩, [LEv.unreg h])

/-- Model of `~event_sender_range_factory()` (line 37): an empty body, and the
union's `~storage()` (line 58) is also empty, so destroying a factory
touches nothing: no unregister call, no registration destruction. -/
def factory_dtor (f : Factory) : Factory × List LEv := (f, [])

/-- One whole bridge lifetime as `main` (lines 204-223) drives it: the
factory is created, `start` is called once (registering), the returned
range is driven by the consumer/delivery actions, and the range's
destructor runs at scope exit (unregistering). -/
def bridgeLifetime (registerResult : Option Nat) (acts : List Act) :
    Option (Factory × List LEv) :=
  match factory_start registerResult create_event_sender_range with
  | none => none
  | some (f1, evs1) =>
    match runActs f1.slot acts with
    | none => none
    | some (s2, evs2) =>
      match sender_range_dtor ⟨f1.registration, s2⟩ with
      | none => none
      | some (f3, evs3) => some (f3, evs1 ++ evs2.map liftEv ++ evs3)

theorem countP_liftEv_reg (evs : List Ev) :
    (evs.map liftEv).countP isRegCall = 0 := by
  induction evs with
  | nil => rfl
  | cons ev rest ih => cases ev <;> simp [liftEv, isRegCall, List.countP_cons, ih]

theorem countP_liftEv_unreg (evs : List Ev) :
    (evs.map liftEv).countP isUnregCall = 0 := by
  induction evs with
  | nil => rfl
  | cons ev rest ih => cases ev <;> simp [liftEv, isUnregCall, List.countP_cons, ih]

/-- C6: in every completed bridge lifetime whose register call succeeded
with handle `h`, the external-call trace is exactly one `reg h` — the very
first event, before any Operation is started — followed by operation
events containing no register/unregister, followed by exactly one
`unreg h` as the very last event. -/
theorem registration_symmetry (h : Nat) (acts : List Act) (f : Factory)
    (evs : List LEv) (hrun : bridgeLifetime (some h) acts = some (f, evs)) :
    ∃ mid, evs = LEv.reg h :: (mid ++ [LEv.unreg h]) ∧
      mid.countP isRegCall = 0 ∧ mid.countP isUnregCall = 0 ∧
      evs.countP isRegCall = 1 ∧ evs.countP isUnregCall = 1 ∧
      evs.head? = some (LEv.reg h) ∧ evs.getLast? = some (LEv.unreg h) := by
  unfold bridgeLifetime factory_start create_event_sender_range at hrun
  simp only at hrun
  cases hr : runActs Slot.init acts with
  | none =>
    rw [hr] at hrun
    exact Option.noConfusion hrun
  | some p =>
    obtain ⟨s2, evs2⟩ := p
    rw [hr] at hrun
    simp only [sender_range_dtor, Option.some.injEq, Prod.mk.injEq] at hrun
    refine ⟨evs2.map liftEv, ?_, countP_liftEv_reg evs2, countP_liftEv_unreg evs2,
      ?_, ?_, ?_, ?_⟩
    · rw [← hrun.2]; simp
    · rw [← hrun.2]
      rw [List.countP_append, List.countP_append, countP_liftEv_reg]
      simp [List.countP_cons, isRegCall]
    · rw [← hrun.2]
      rw [List.countP_append, List.countP_append, countP_liftEv_unreg]
      simp [List.countP_cons, isUnregCall]
    · rw [← hrun.2]; simp
    · rw [← hrun.2, List.getLast?_concat]

theorem registration_symmetry_witness :
    ∃ mid, [LEv.reg 7, LEv.opStart 0, LEv.opComplete 0 42, LEv.unreg 7]
        = LEv.reg 7 :: (mid ++ [LEv.unreg 7]) ∧
      mid.countP isRegCall = 0 ∧ mid.countP isUnregCall = 0 ∧
      ([LEv.reg 7, LEv.opStart 0, LEv.opComplete 0 42,
        LEv.unreg 7] : List LEv).countP isRegCall = 1 ∧
      ([LEv.reg 7, LEv.opStart 0, LEv.opComplete 0 42,
        LEv.unreg 7] : List LEv).countP isUnregCall = 1 ∧
      ([LEv.reg 7, LEv.opStart 0, LEv.opComplete 0 42,
        LEv.unreg 7] : List LEv).head? = some (LEv.reg 7) ∧
      ([LEv.reg 7, LEv.opStart 0, LEv.opComplete 0 42,
        LEv.unreg 7] : List LEv).getLast? = some (LEv.unreg 7) :=
  registration_symmetry 7 [Act.startOp 0, Act.deliverE 42] ⟨none, ⟨none, none⟩⟩
    [LEv.reg 7, LEv.opStart 0, LEv.opComplete 0 42, LEv.unreg 7] (by rfl)

-- ### Registration failure (kbdhookstate) and the never-started factory

/-- C10: if `start` is never called, destroying the factory performs no
external call at all (the destructor bodies are empty): the trace is
empty — zero register calls, zero unregister calls — the factory is
returned untouched, the registration storage was never constructed, and
both EventSlot fields are empty for the whole lifetime. -/
theorem never_started_factory_is_inert :
    factory_dtor create_event_sender_range = (create_event_sender_range, []) ∧
    (factory_dtor create_event_sender_range).2.countP isRegCall = 0 ∧
    (factory_dtor create_event_sender_range).2.countP isUnregCall = 0 ∧
    create_event_sender_range.registration = none ∧
    create_event_sender_range.slot.pendingOperation = none ∧
    create_event_sender_range.slot.complete_with_event = none :=
  ⟨rfl, rfl, rfl, rfl, rfl, rfl⟩

-- ### The sequence generator and connect (for C8)

/-- Model of `event_sender<StopToken>` (lines 89-106): holds the factory pointer
and the stop token. -/
structure EventSender where
  factory : Nat
  stopToken : Nat
deriving DecidableEq, Repr

/-- Model of `event_operation_state<StopToken, Receiver>` (lines 67-88): factory
pointer, stop token and receiver. -/
structure EventOperationState where
  factory : Nat
  stopToken : Nat
  receiver : Nat
deriving DecidableEq, Repr

/-- The transform step of the sender range (lines 124-128): for each index
the lambda `[this, token](int){ return event_sender{this, token}; }`
builds one sender; the index is ignored and the slot is not touched. -/
def senderAt (factoryPtr token : Nat) (i : Nat) : EventSender :=
  ⟨factoryPtr, token⟩

/-- Model of `event_sender::connect` (lines 102-105): returns
`{factory_, stopToken_, receiver}`; no slot access. -/
def event_sender.connect (snd : EventSender) (receiver : Nat) :
    EventOperationState :=
  ⟨snd.factory, snd.stopToken, receiver⟩

/-- Advancing the sequence at index `i` and connecting a receiver, viewed
as a transformer of the factory state: the code only constructs records,
so the factory (including its EventSlot) passes through untouched. -/
def advanceAndConnect (f : Factory) (factoryPtr token i receiver : Nat) :
    Factory × EventOperationState :=
  (f, event_sender.connect (senderAt factoryPtr token i) receiver)

/-- C8: each advance of the sequence generator yields exactly the one new
operation record determined by the factory pointer, stream token and
receiver; constructing the sender and connecting it leave the factory —
in particular both EventSlot fields — exactly unchanged, the new
Operation is not pending (Created, not pre-published), and publication
into the slot happens only when its `start` protocol runs. -/
theorem advance_does_not_prepublish (f : Factory) (fp token i receiver id : Nat)
    (hp : f.slot.pendingOperation = none)
    (hc : f.slot.complete_with_event = none) :
    (advanceAndConnect f fp token i receiver).1 = f ∧
    (advanceAndConnect f fp token i receiver).2 = ⟨fp, token, receiver⟩ ∧
    f.slot.pendingOperation ≠ some id ∧
    start f.slot id = StartResult.ok ⟨some id, some id⟩ := by
  refine ⟨rfl, rfl, ?_, ?_⟩
  · rw [hp]
    intro hx
    exact Option.noConfusion hx
  · exact start_ok_of_empty f.slot.pendingOperation f.slot.complete_with_event id hp hc

theorem advance_does_not_prepublish_witness :
    (advanceAndConnect create_event_sender_range 0 5 3 2).1 = create_event_sender_range ∧
    (advanceAndConnect create_event_sender_range 0 5 3 2).2 = ⟨0, 5, 2⟩ ∧
    create_event_sender_range.slot.pendingOperation ≠ some 1 ∧
    start create_event_sender_range.slot 1 = StartResult.ok ⟨some 1, some 1⟩ :=
  advance_does_not_prepublish create_event_sender_range 0 5 3 2 1 (by rfl) (by rfl)

-- ### Stop-token independence (for C9)

/-- Model of `event_operation_state::complete_with_event` (lines 73-76): hands the
event to the receiver via `unifex::set_value`; the operation's stop token
is not read.  The result is the (receiver, event) completion. -/
def EventOperationState.complete_with_event (op : EventOperationState)
    (e : Nat) : Nat × Nat :=
  (op.receiver, e)

/-- The event slot with the pending operation's full record stored (the
`void*` dereferenced), for stating that the stop token each operation
carries is never consulted.  `trampolineSet` models the
`complete_with_event_` pointer, which is always the one static
`&event_operation_state::complete_with_event`. -/
structure SlotR where
  pendingOperation : Option EventOperationState
  trampolineSet : Bool
deriving DecidableEq, Repr

def SlotR.init : SlotR := ⟨none, false⟩

/-- Model of `start()` (lines 78-87) at the record level; `none` = terminate. -/
def startR (s : SlotR) (op : EventOperationState) : Option SlotR :=
  if s.pendingOperation = none then
    if s.trampolineSet = false then some ⟨some op, true⟩ else none
  else none

/-- Model of `operator()(event)` (lines 42-51) at the record level; `none` =
terminate or spin forever. -/
def deliverR (s : SlotR) (e : Nat) : Option (SlotR × List (Nat × Nat)) :=
  match s.pendingOperation with
  | none => some (⟨none, s.trampolineSet⟩, [])
  | some op =>
    if s.trampolineSet then
      some (⟨none, false⟩, [op.complete_with_event e])
    else none

/-- Drive the record-level slot: every started operation carries the one
stop token the stream was created with (line 127 captures `token` into
every sender); the started operation's receiver is its id. -/
def runR (token : Nat) (s : SlotR) : List Act → Option (SlotR × List (Nat × Nat))
  | [] => some (s, [])
  | Act.startOp id :: rest =>
    match startR s ⟨0, token, id⟩ with
    | none => none
    | some s1 => runR token s1 rest
  | Act.deliverE e :: rest =>
    match deliverR s e with
    | none => none
    | some (s1, cs) =>
      match runR token s1 rest with
      | none => none
      | some (s2, cs2) => some (s2, cs ++ cs2)

/-- Replace the stop token stored in a slot's pending operation. -/
def retokSlot (t : Nat) (s : SlotR) : SlotR :=
  ⟨s.pendingOperation.map (fun op => ⟨op.factory, t, op.receiver⟩),
   s.trampolineSet⟩

/-- Swapping the stop token of every operation commutes with the whole
run: the run with token `t2` is, state-for-state and completion-for-
completion, the token-swapped image of the run with token `t1`. -/
theorem runR_retok (t1 t2 : Nat) (acts : List Act) :
    ∀ s, runR t2 (retokSlot t2 s) acts =
      Option.map (fun p => (retokSlot t2 p.1, p.2)) (runR t1 s acts) := by
  induction acts with
  | nil => intro s; rfl
  | cons a rest ih =>
    intro s
    obtain ⟨p, b⟩ := s
    cases a with
    | startOp id =>
      cases p with
      | none =>
        cases b with
        | false =>
          have h := ih ⟨some ⟨0, t1, id⟩, true⟩
          simpa [runR, retokSlot, startR] using h
        | true => simp [runR, retokSlot, startR]
      | some op =>
        obtain ⟨f0, tk, r⟩ := op
        simp [runR, retokSlot, startR]
    | deliverE e =>
      cases p with
      | none =>
        have h := ih ⟨none, b⟩
        rw [show retokSlot t2 (⟨none, b⟩ : SlotR) = ⟨none, b⟩ from rfl] at h
        have hl : runR t2 (retokSlot t2 (⟨none, b⟩ : SlotR)) (Act.deliverE e :: rest)
            = (match runR t2 (⟨none, b⟩ : SlotR) rest with
               | none => none
               | some (s2, cs2) => some (s2, ([] : List (Nat × Nat)) ++ cs2)) := rfl
        have hr : runR t1 (⟨none, b⟩ : SlotR) (Act.deliverE e :: rest)
            = (match runR t1 (⟨none, b⟩ : SlotR) rest with
               | none => none
               | some (s2, cs2) => some (s2, ([] : List (Nat × Nat)) ++ cs2)) := rfl
        rw [hl, hr, h]
        cases hq : runR t1 (⟨none, b⟩ : SlotR) rest with
        | none => rfl
        | some q => rfl
      | some op =>
        obtain ⟨f0, tk, r⟩ := op
        cases b with
        | false => simp [runR, retokSlot, deliverR]
        | true =>
          have h := ih ⟨none, false⟩
          rw [show retokSlot t2 (⟨none, false⟩ : SlotR) = ⟨none, false⟩ from rfl] at h
          have hl : runR t2 (retokSlot t2 (⟨some ⟨f0, tk, r⟩, true⟩ : SlotR))
                (Act.deliverE e :: rest)
              = (match runR t2 (⟨none, false⟩ : SlotR) rest with
                 | none => none
                 | some (s2, cs2) => some (s2, [((r : Nat), (e : Nat))] ++ cs2)) := rfl
          have hr : runR t1 (⟨some ⟨f0, tk, r⟩, true⟩ : SlotR)
                (Act.deliverE e :: rest)
              = (match runR t1 (⟨none, false⟩ : SlotR) rest with
                 | none => none
                 | some (s2, cs2) => some (s2, [((r : Nat), (e : Nat))] ++ cs2)) := rfl
          rw [hl, hr, h]
          cases hq : runR t1 (⟨none, false⟩ : SlotR) rest with
          | none => rfl
          | some q => rfl

/-- C9: the stop token is threaded through — every operation the stream
starts stores it — but the delivery/completion path never consults it:
the completion trampoline produces the same (receiver, event) for any two
token values, `deliver` behaves identically on slots that differ only in
the stored token, and a whole run under token `t1` produces exactly the
same completions as the same run under token `t2`. -/
theorem stop_token_not_consulted (t1 t2 f r e : Nat) (acts : List Act) :
    EventOperationState.complete_with_event ⟨f, t1, r⟩ e =
      EventOperationState.complete_with_event ⟨f, t2, r⟩ e ∧
    (∀ b : Bool, deliverR ⟨some ⟨f, t1, r⟩, b⟩ e = deliverR ⟨some ⟨f, t2, r⟩, b⟩ e) ∧
    Option.map (fun p => p.2) (runR t2 SlotR.init acts) =
      Option.map (fun p => p.2) (runR t1 SlotR.init acts) := by
  refine ⟨rfl, ?_, ?_⟩
  · intro b
    cases b <;> rfl
  · have h := runR_retok t1 t2 acts SlotR.init
    rw [show retokSlot t2 SlotR.init = SlotR.init from rfl] at h
    rw [h]
    cases runR t1 SlotR.init acts with
    | none => rfl
    | some q => rfl
